import Mathlib

/-!
Verification development for the Obsidian-Plot code-block renderer.

The definitions below are a shallow embedding of the plugin's `plot`
code-block processor (src/src/main.ts and the richer variant in
src/unnamed/part_000): the tolerant configuration parser, the data
resolution branch, the sandboxed user-code invocation, and the default
plot fallback.  JavaScript strings are modelled as `List Char` / `String`,
JavaScript values as the `JValue` inductive, and the external
collaborators (fetch transport, user-code evaluation, the visualization
library) as explicit function parameters.
-/

/-- Model of a JavaScript value as it flows through the pipeline.
Numbers are kept as a mantissa/decimal-exponent pair exactly as written in
the source literal (all inputs exercised here are integers, carried as
`num m 0`). `undefined` models JavaScript `undefined`, which JSON never
produces but property access and user code can. -/
inductive JValue where
  | null : JValue
  | undefined : JValue
  | bool : Bool → JValue
  | num : Int → Int → JValue
  | str : String → JValue
  | arr : List JValue → JValue
  | obj : List (String × JValue) → JValue

/-- JavaScript truthiness of a value, as used by the plugin's
`if (config.dataUrl)` / `else if (config.data)` / `if (config.code)` and
`if (!spec)` tests. -/
def jsTruthy : JValue → Bool
  | .null => false
  | .undefined => false
  | .bool b => b
  | .num m _ => m != 0
  | .str s => s != ""
  | .arr _ => true
  | .obj _ => true

/-- List-prefix test used to model JavaScript exact-substring search. -/
def startsWithL : List Char → List Char → Bool
  | _, [] => true
  | [], _ :: _ => false
  | a :: l, b :: p => a == b && startsWithL l p

/-- Substring test over character lists. -/
def hasSubstr (hay sub : List Char) : Bool :=
  if startsWithL hay sub then true
  else
    match hay with
    | [] => false
    | _ :: t => hasSubstr t sub

/-- Model of JavaScript `String.prototype.replace` with a plain string
pattern: only the first occurrence is replaced; a missing pattern leaves
the text unchanged. -/
def replaceFirstStr (hay needle repl : List Char) : List Char :=
  if startsWithL hay needle then repl ++ hay.drop needle.length
  else
    match hay with
    | [] => []
    | c :: t => c :: replaceFirstStr t needle repl

/-- JSON whitespace characters (ECMA-404): space, tab, newline, carriage
return. -/
def jsonWs (c : Char) : Bool :=
  c == ' ' || c == '\t' || c == '\n' || c == '\r'

/-- Drop leading JSON whitespace. -/
def skipJsonWs : List Char → List Char
  | [] => []
  | c :: r => if jsonWs c then skipJsonWs r else c :: r

/-- Characters matched by the JavaScript regex class backslash-s
(the common ASCII members plus no-break space; the rarer Unicode space
code points do not occur in any input considered here). -/
def jsWs (c : Char) : Bool :=
  c == ' ' || c == '\t' || c == '\n' || c == '\r' ||
  c == '\x0b' || c == '\x0c' || c == '\xa0'

/-- Drop leading JavaScript-regex whitespace. -/
def dropJsWs : List Char → List Char
  | [] => []
  | c :: r => if jsWs c then dropJsWs r else c :: r

/-- Hexadecimal digit value. -/
def hexVal (c : Char) : Option Nat :=
  if '0' ≤ c && c ≤ '9' then some (c.toNat - 48)
  else if 'a' ≤ c && c ≤ 'f' then some (c.toNat - 87)
  else if 'A' ≤ c && c ≤ 'F' then some (c.toNat - 55)
  else none

/-- Body of a JSON string literal, after the opening quote: strict JSON
rejects raw control characters (this is what makes a configuration whose
`code` value holds literal newlines invalid as JSON) and recognizes the
eight escape forms plus `u` followed by four hex digits.  Returns the
decoded characters and the remainder after the closing quote. -/
def parseStrBody : List Char → Option (List Char × List Char)
  | [] => none
  | '"' :: r => some ([], r)
  | '\\' :: 'u' :: h1 :: h2 :: h3 :: h4 :: r =>
    match hexVal h1, hexVal h2, hexVal h3, hexVal h4 with
    | some a, some b, some c, some d =>
      match parseStrBody r with
      | some (cs, r2) => some (Char.ofNat (a * 4096 + b * 256 + c * 16 + d) :: cs, r2)
      | none => none
    | _, _, _, _ => none
  | '\\' :: e :: r =>
    match
      (if e == '"' then some '"'
       else if e == '\\' then some '\\'
       else if e == '/' then some '/'
       else if e == 'b' then some '\x08'
       else if e == 'f' then some '\x0c'
       else if e == 'n' then some '\n'
       else if e == 'r' then some '\r'
       else if e == 't' then some '\t'
       else none) with
    | some d =>
      match parseStrBody r with
      | some (cs, r2) => some (d :: cs, r2)
      | none => none
    | none => none
  | c :: r =>
    if c.toNat < 32 then none
    else
      match parseStrBody r with
      | some (cs, r2) => some (c :: cs, r2)
      | none => none

/-- Numeric value of a digit string. -/
def digitsToNat (l : List Char) : Nat :=
  l.foldl (fun a c => a * 10 + (c.toNat - 48)) 0

/-- Unsigned part of a JSON number: integer part (a single `0`, or a
nonzero digit followed by digits), optional fraction, optional exponent.
Returns mantissa, decimal exponent and the remainder. -/
def parseUnsignedNumber (l : List Char) : Option (Int × Int × List Char) :=
  let intPart : Option (Nat × List Char) :=
    match l with
    | [] => none
    | c :: r =>
      if c == '0' then some (0, r)
      else if c.isDigit then
        some (digitsToNat (c :: r.takeWhile Char.isDigit), r.dropWhile Char.isDigit)
      else none
  intPart.bind fun ipr =>
    let fracPart : Option (Int × Int × List Char) :=
      match ipr.2 with
      | '.' :: r2 =>
        let fr := r2.takeWhile Char.isDigit
        if fr.isEmpty then none
        else some ((ipr.1 * 10 ^ fr.length + digitsToNat fr : Int), -(fr.length : Int), r2.dropWhile Char.isDigit)
      | _ => some ((ipr.1 : Int), 0, ipr.2)
    fracPart.bind fun mer =>
      match mer.2.2 with
      | c :: r4 =>
        if c == 'e' || c == 'E' then
          let sgnPart : Option (Int × List Char) :=
            match r4 with
            | '+' :: r5 => some (1, r5)
            | '-' :: r5 => some (-1, r5)
            | r5 => some (1, r5)
          sgnPart.bind fun sr =>
            let ds := sr.2.takeWhile Char.isDigit
            if ds.isEmpty then none
            else some (mer.1, mer.2.1 + sr.1 * (digitsToNat ds : Int), sr.2.dropWhile Char.isDigit)
        else some mer
      | [] => some mer

/-- JSON number with optional leading minus sign. -/
def parseNumber (l : List Char) : Option (Int × Int × List Char) :=
  match l with
  | '-' :: r => (parseUnsignedNumber r).map fun (m, e, r2) => (-m, e, r2)
  | r => parseUnsignedNumber r

mutual

/-- Fueled strict JSON value parser modelling `JSON.parse` (the fuel is
initialized above the input length, which bounds recursion depth). -/
def parseValueF : Nat → List Char → Except String (JValue × List Char)
  | 0, _ => .error "too deeply nested"
  | Nat.succ fuel, l =>
    match skipJsonWs l with
    | 'n' :: 'u' :: 'l' :: 'l' :: r => .ok (.null, r)
    | 't' :: 'r' :: 'u' :: 'e' :: r => .ok (.bool true, r)
    | 'f' :: 'a' :: 'l' :: 's' :: 'e' :: r => .ok (.bool false, r)
    | '"' :: r =>
      match parseStrBody r with
      | some (cs, r2) => .ok (.str (String.mk cs), r2)
      | none => .error "bad string"
    | '[' :: r =>
      (match skipJsonWs r with
       | ']' :: r2 => .ok (.arr [], r2)
       | r2 =>
         match parseItemsF fuel r2 with
         | .ok (vs, r3) => .ok (.arr vs, r3)
         | .error e => .error e)
    | '\x7b' :: r =>
      (match skipJsonWs r with
       | '\x7d' :: r2 => .ok (.obj [], r2)
       | r2 =>
         match parseMembersF fuel r2 with
         | .ok (ms, r3) => .ok (.obj ms, r3)
         | .error e => .error e)
    | r =>
      match parseNumber r with
      | some (m, e, r2) => .ok (.num m e, r2)
      | none => .error "unexpected token"

/-- Comma-separated array items up to the closing bracket. -/
def parseItemsF : Nat → List Char → Except String (List JValue × List Char)
  | 0, _ => .error "too deeply nested"
  | Nat.succ fuel, l =>
    match parseValueF fuel l with
    | .error e => .error e
    | .ok (v, r) =>
      match skipJsonWs r with
      | ',' :: r2 =>
        (match parseItemsF fuel r2 with
         | .ok (vs, r3) => .ok (v :: vs, r3)
         | .error e => .error e)
      | ']' :: r2 => .ok ([v], r2)
      | _ => .error "expected comma or closing bracket"

/-- Comma-separated object members up to the closing brace (the caller
has already skipped leading whitespace). -/
def parseMembersF : Nat → List Char → Except String (List (String × JValue) × List Char)
  | 0, _ => .error "too deeply nested"
  | Nat.succ fuel, l =>
    match l with
    | '"' :: r =>
      (match parseStrBody r with
       | none => .error "bad key"
       | some (k, r2) =>
         match skipJsonWs r2 with
         | ':' :: r3 =>
           (match parseValueF fuel r3 with
            | .error e => .error e
            | .ok (v, r4) =>
              match skipJsonWs r4 with
              | ',' :: r5 =>
                (match parseMembersF fuel (skipJsonWs r5) with
                 | .ok (ms, r6) => .ok ((String.mk k, v) :: ms, r6)
                 | .error e => .error e)
              | '\x7d' :: r5 => .ok ([(String.mk k, v)], r5)
              | _ => .error "expected comma or closing brace")
         | _ => .error "expected colon")
    | _ => .error "expected key"

end

/-- Model of `JSON.parse`: one value, then only whitespace may remain. -/
def jsonParse (l : List Char) : Except String JValue :=
  match parseValueF (l.length + 1) l with
  | .error e => .error e
  | .ok (v, r) => if (skipJsonWs r).isEmpty then .ok v else .error "unexpected trailing characters"

/-- Success test for an `Except` result. -/
def isOkE {α : Type} (x : Except String α) : Bool :=
  match x with
  | .ok _ => true
  | .error _ => false

/-- Lookahead of the tolerant regex's closing-quote group: the source
pattern requires the quote to be followed by optional whitespace and then
a closing brace, closing bracket or comma. -/
def lookaheadWsDelim : List Char → Bool
  | [] => false
  | c :: r =>
    if jsWs c then lookaheadWsDelim r
    else c == '\x7d' || c == ']' || c == ','

/-- Lazy scan of the regex's middle group: starting after the opening
quote, the shortest extension ending at a quote whose lookahead succeeds.
Returns the captured payload and the remainder after that quote. -/
def scanClose : List Char → Option (List Char × List Char)
  | [] => none
  | c :: rest =>
    if c == '"' && lookaheadWsDelim rest then some ([], rest)
    else
      match scanClose rest with
      | some (g, r) => some (c :: g, r)
      | none => none

/-- Strip an exact literal from the head of the input. -/
def stripLit : List Char → List Char → Option (List Char)
  | [], l => some l
  | _ :: _, [] => none
  | c :: cs, x :: l => if x == c then stripLit cs l else none

/-- Attempt to match the tolerant-recovery regex at the head of the
input: the literal quoted `code` key, optional whitespace, a colon,
optional whitespace, an opening quote, then the lazy scan for the
closing quote.  Returns the length of the whole match, the captured
payload and the remainder. -/
def tryMatchCode (l : List Char) : Option (Nat × List Char × List Char) :=
  match stripLit ['"', 'c', 'o', 'd', 'e', '"'] l with
  | none => none
  | some l1 =>
    match dropJsWs l1 with
    | ':' :: l3 =>
      (match dropJsWs l3 with
       | '"' :: l5 =>
         (match scanClose l5 with
          | some (g2, rest) => some (l.length - rest.length, g2, rest)
          | none => none)
       | _ => none)
    | _ => none

/-- Leftmost match of the tolerant-recovery regex over the whole source:
the earliest position where the pattern matches, with the lazy middle
group.  Returns the full matched text, the captured payload and the
remainder after the match. -/
def matchCode : List Char → Option (List Char × List Char × List Char)
  | [] => none
  | c :: t =>
    match tryMatchCode (c :: t) with
    | some (n, g2, rest) => some ((c :: t).take n, g2, rest)
    | none => matchCode t

/-- First escape-reversal substitution: each backslash-n pair becomes a
real newline, scanning left to right without overlap. -/
def replaceEscN : List Char → List Char
  | [] => []
  | [c] => [c]
  | c :: d :: rest =>
    if c == '\\' && d == 'n' then '\n' :: replaceEscN rest
    else c :: replaceEscN (d :: rest)

/-- Second escape-reversal substitution: each backslash-quote pair
becomes a literal quote. -/
def replaceEscQuote : List Char → List Char
  | [] => []
  | [c] => [c]
  | c :: d :: rest =>
    if c == '\\' && d == '"' then '"' :: replaceEscQuote rest
    else c :: replaceEscQuote (d :: rest)

/-- Third escape-reversal substitution: every remaining backslash is
deleted. -/
def removeBackslashes (l : List Char) : List Char :=
  l.filter fun c => c != '\\'

/-- The three escape reversals of the tolerant path, applied in source
order. -/
def unescapeCode (l : List Char) : List Char :=
  removeBackslashes (replaceEscQuote (replaceEscN l))

/-- The parsed configuration, typed as the source's `PlotConfig`
interface: an optional inline array of rows, an optional URL string and
an optional code payload. -/
structure PlotConfig where
  data : Option (List JValue)
  dataUrl : Option String
  code : Option String

/-- Last-wins lookup in a parsed object's member list, matching how
`JSON.parse` resolves duplicate keys. -/
def lookupLast (fields : List (String × JValue)) (k : String) : Option JValue :=
  fields.foldl (fun acc p => if p.1 = k then some p.2 else acc) none

/-- Read a parsed JSON value as a `PlotConfig`, keeping each field only
when it has the type the source's interface declares (an array for
`data`, a string for `dataUrl` and `code`); any other shape is treated
as an absent field, which is also how the plugin's truthiness tests
branch on the values actually exercised. -/
def toConfig (v : JValue) : PlotConfig :=
  match v with
  | .obj fs =>
    { data := match lookupLast fs "data" with | some (.arr xs) => some xs | _ => none
      dataUrl := match lookupLast fs "dataUrl" with | some (.str s) => some s | _ => none
      code := match lookupLast fs "code" with | some (.str s) => some s | _ => none }
  | _ => { data := none, dataUrl := none, code := none }

/-- The replacement text spliced over the regex match before the second
structured parse. -/
def placeholderRepl : List Char := "\"code\":\"__CODE_PLACEHOLDER__\"".toList

/-- The configuration parser of the code-block processor: a direct
`JSON.parse`, and on failure the tolerant path, which locates the code
region with the regex, replaces the first occurrence of the matched text
with the placeholder member, parses the remainder as JSON and assigns
the escape-reversed captured payload as the `code` field. -/
def parsePlotConfig (src : List Char) : Except String PlotConfig :=
  match jsonParse src with
  | .ok v => .ok (toConfig v)
  | .error _ =>
    match matchCode src with
    | none => .error "Failed to parse JSON and couldn\x27t find code section"
    | some (m0, g2, _) =>
      let withoutCode := replaceFirstStr src m0 placeholderRepl
      match jsonParse withoutCode with
      | .error e => .error ("Failed to parse JSON: " ++ e)
      | .ok v => .ok { toConfig v with code := some (String.mk (unescapeCode g2)) }

/-- Split a character list on every occurrence of a separator character,
as JavaScript `split` with a one-character separator does. -/
def splitOnChar (c : Char) : List Char → List (List Char)
  | [] => [[]]
  | x :: xs =>
    let r := splitOnChar c xs
    if x == c then [] :: r
    else
      match r with
      | [] => [[x]]
      | h :: t => (x :: h) :: t

/-- File extension chosen by the resolver: the last dot-separated
component of the URL path, lowercased
(`url.pathname.split(".").pop()?.toLowerCase()`). -/
def extOf (pth : List Char) : List Char :=
  ((splitOnChar '.' pth).getLastD []).map Char.toLower

/-- Path component of a URL after the scheme separator: skip the
authority up to the first slash, then take until a query or fragment
delimiter; an authority with no path yields the root path, matching the
URL class. -/
def pathAfterAuthority : List Char → List Char
  | [] => ['/']
  | '/' :: r => '/' :: r.takeWhile fun c => c != '?' && c != '#'
  | '?' :: _ => ['/']
  | '#' :: _ => ['/']
  | _ :: r => pathAfterAuthority r

/-- Model of `new URL(u).pathname` for absolute URLs with an authority;
other inputs make the constructor throw, modelled as `none`
(percent-decoding and dot-segment normalization are not modelled; no
input exercised here uses them). -/
def pathnameOf (u : List Char) : Option (List Char) :=
  match u with
  | ':' :: '/' :: '/' :: r => some (pathAfterAuthority r)
  | _ :: r => pathnameOf r
  | [] => none

/-- JavaScript string trim over the whitespace class. -/
def trimBoth (l : List Char) : List Char :=
  ((l.dropWhile jsWs).reverse.dropWhile jsWs).reverse

/-- Integer literal test used by the automatic type inference model. -/
def parseIntLit (l : List Char) : Option Int :=
  match l with
  | '-' :: r =>
    if !r.isEmpty && r.all Char.isDigit then some (-(digitsToNat r : Int)) else none
  | r =>
    if !r.isEmpty && r.all Char.isDigit then some ((digitsToNat r : Int)) else none

/-- Modelled from the spec: the data-manipulation collaborator's
per-field automatic type inference (d3.autoType is outside this
repository).  The spec requires that numeric-looking strings become
numbers, recognizable date strings become dates and everything else
stays a string; this model covers the empty, boolean, integer-numeric
and plain-string cases, which are the only ones the bodies exercised
here contain. -/
def autoType (s : String) : JValue :=
  let t := trimBoth s.toList
  if t.isEmpty then .null
  else if t = "true".toList then .bool true
  else if t = "false".toList then .bool false
  else
    match parseIntLit t with
    | some n => .num n 0
    | none => .str s

/-- Modelled from the spec: the collaborator's delimited-text parsing
(d3.csvParse / d3.tsvParse are outside this repository).  The first line
names the columns; each following line is one record whose fields pass
through the automatic type inference; a trailing empty line is not a
record. -/
def dsvParse (delim : Char) (text : String) : JValue :=
  match splitOnChar '\n' text.toList with
  | [] => .arr []
  | header :: rows0 =>
    let names := splitOnChar delim header
    let rows := match rows0.getLast? with
      | some [] => rows0.dropLast
      | _ => rows0
    .arr (rows.map fun r =>
      .obj ((names.zip (splitOnChar delim r)).map fun nf =>
        (String.mk nf.1, autoType (String.mk nf.2))))

/-- Member access modelling `value.objects` / `value.type` on a parsed
JSON value: a lookup on objects, `undefined` otherwise (access on `null`
is handled separately by the classifier, where it throws). -/
def getMemberD (v : JValue) (k : String) : JValue :=
  match v with
  | .obj fs =>
    (match lookupLast fs k with
     | some x => x
     | none => .undefined)
  | _ => .undefined

/-- String strict-equality test on a JSON value. -/
def isStrEq (v : JValue) (s : String) : Bool :=
  match v with
  | .str t => t == s
  | _ => false

/-- Classification of a parsed JSON body: a value with a truthy
`objects` member or a `type` of `FeatureCollection` or `Feature` passes
through unchanged, an array is the tabular sequence, and any other value
is wrapped in a one-element array; property access on a parsed `null`
throws. -/
def classifyJson : JValue → Except String JValue
  | .null => .error "Cannot read properties of null (reading \x27objects\x27)"
  | v =>
    if jsTruthy (getMemberD v "objects") then .ok v
    else if isStrEq (getMemberD v "type") "FeatureCollection" || isStrEq (getMemberD v "type") "Feature" then .ok v
    else
      match v with
      | .arr _ => .ok v
      | _ => .ok (.arr [v])

/-- Format dispatch on a fetched body: recognized extension suffixes
first, then sniffing — a JSON-looking body, a tab character implying
TSV, and CSV otherwise. -/
def dispatchFormat (ext : List Char) (text : String) : Except String JValue :=
  if ext = "csv".toList then .ok (dsvParse ',' text)
  else if ext = "tsv".toList then .ok (dsvParse '\t' text)
  else if ext = "json".toList || ext = "geojson".toList || ext = "topojson".toList then
    (jsonParse text.toList).bind classifyJson
  else
    let t := trimBoth text.toList
    if t.head? = some '\x7b' || t.head? = some '[' then
      (jsonParse text.toList).bind classifyJson
    else if text.toList.contains '\t' then .ok (dsvParse '\t' text)
    else .ok (dsvParse ',' text)

/-- One fetch response: HTTP success flag, status code and body text. -/
structure FetchResponse where
  ok : Bool
  status : Nat
  text : String

/-- Outcome of one fetch call: a response, or a rejection carrying an
error message. -/
inductive FetchResult where
  | success : FetchResponse → FetchResult
  | networkError : String → FetchResult

/-- Body of the resolver's try block for a URL: the fetch, the response
status check, the URL path extraction and the format dispatch; error
messages here are the raw ones the corresponding throws carry. -/
def fetchAndParse (u : String) (fetch : String → FetchResult) : Except String JValue :=
  match fetch u with
  | .networkError m => .error m
  | .success resp =>
    if !resp.ok then .error ("HTTP error! status: " ++ toString resp.status)
    else
      match pathnameOf u.toList with
      | none => .error "Invalid URL"
      | some pth => dispatchFormat (extOf pth) resp.text

/-- Inline branch of the resolver: the inline rows when present,
otherwise the missing-source error. -/
def resolveInline (cfg : PlotConfig) : Except String JValue × Option String :=
  match cfg.data with
  | some rows => (.ok (.arr rows), none)
  | none => (.error "Either data or dataUrl must be provided", none)

/-- The data-resolution branch of the processor: a truthy `dataUrl`
selects the fetch path (any failure inside it is wrapped with the
fetch-failure context), otherwise the inline branch runs.  The second
component records the URL handed to the fetch transport, `none` when no
fetch was issued. -/
def resolveData (cfg : PlotConfig) (fetch : String → FetchResult) :
    Except String JValue × Option String :=
  match cfg.dataUrl with
  | some u =>
    if u != "" then
      ((fetchAndParse u fetch).mapError fun m => "Failed to fetch data from URL: " ++ m, some u)
    else resolveInline cfg
  | none => resolveInline cfg

/-- A mark layer of a plot specification. -/
inductive Mark where
  | dot : JValue → Mark

/-- The default specification synthesized when no code payload is
supplied. -/
structure DefaultSpec where
  width : Nat
  height : Nat
  margin : Nat
  marks : List Mark

/-- What the processor hands to the visualization library: either the
value user code returned, or the synthesized default specification. -/
inductive SpecArg where
  | userSpec : JValue → SpecArg
  | defaultSpec : DefaultSpec → SpecArg

/-- Opaque rendered graphic produced by the visualization library. -/
structure Graphic where
  id : Nat
deriving DecidableEq

/-- Outcome of evaluating the user's code payload against the dataset:
the returned value, or a thrown error's message (a construction-time
syntax failure also surfaces as a throw inside the wrapping function). -/
inductive JSOutcome where
  | ret : JValue → JSOutcome
  | threw : String → JSOutcome

/-- Observable result of one render pass: the text written into the
block element by the top-level catch, whether the plot container was
created, the text written into the container by the async catch, the
attached graphic, the specification handed to the visualization
library, the URL fetched, and how many times the user function was
invoked. -/
structure RenderOutcome where
  elText : Option String
  containerCreated : Bool
  containerText : Option String
  attached : Option Graphic
  plotCall : Option SpecArg
  fetchedUrl : Option String
  evalCalls : Nat

/-- Default-plot branch: the fixed specification over the resolved
dataset is handed to the visualization library; a null return throws to
the top-level catch, otherwise the graphic is attached. -/
def renderDefault (plotData : JValue) (fetched : Option String)
    (plotPlot : SpecArg → Option Graphic) : RenderOutcome :=
  let spec := SpecArg.defaultSpec ⟨640, 400, 40, [Mark.dot plotData]⟩
  match plotPlot spec with
  | none =>
    { elText := some "Error rendering plot: Plot.plot() returned null",
      containerCreated := true, containerText := none, attached := none,
      plotCall := some spec, fetchedUrl := fetched, evalCalls := 0 }
  | some g =>
    { elText := none, containerCreated := true, containerText := none,
      attached := some g, plotCall := some spec, fetchedUrl := fetched, evalCalls := 0 }

/-- Sandboxed branch: the user function is constructed and invoked once
with the capability arguments; a throw or a falsy returned specification
lands in the async catch, which writes the error text into the
container; otherwise the returned specification goes to the
visualization library. -/
def renderWithCode (c : String) (plotData : JValue) (fetched : Option String)
    (evalUser : String → JValue → JSOutcome)
    (plotPlot : SpecArg → Option Graphic) : RenderOutcome :=
  match evalUser c plotData with
  | .threw m =>
    { elText := none, containerCreated := true,
      containerText := some ("Error generating plot: " ++ m), attached := none,
      plotCall := none, fetchedUrl := fetched, evalCalls := 1 }
  | .ret spec =>
    if !jsTruthy spec then
      { elText := none, containerCreated := true,
        containerText := some "Error generating plot: No plot specification returned",
        attached := none, plotCall := none, fetchedUrl := fetched, evalCalls := 1 }
    else
      match plotPlot (.userSpec spec) with
      | none =>
        { elText := none, containerCreated := true,
          containerText := some "Error generating plot: Plot.plot() returned null",
          attached := none, plotCall := some (.userSpec spec),
          fetchedUrl := fetched, evalCalls := 1 }
      | some g =>
        { elText := none, containerCreated := true, containerText := none,
          attached := some g, plotCall := some (.userSpec spec),
          fetchedUrl := fetched, evalCalls := 1 }

/-- The processor from a parsed configuration onward: data resolution,
then the sandboxed branch when the code payload is truthy and the
default branch otherwise; a resolution failure reaches the top-level
catch, which writes the error text into the block element. -/
def processParsed (cfg : PlotConfig) (fetch : String → FetchResult)
    (evalUser : String → JValue → JSOutcome)
    (plotPlot : SpecArg → Option Graphic) : RenderOutcome :=
  let rd := resolveData cfg fetch
  match rd.1 with
  | .error m =>
    { elText := some ("Error rendering plot: " ++ m), containerCreated := false,
      containerText := none, attached := none, plotCall := none,
      fetchedUrl := rd.2, evalCalls := 0 }
  | .ok plotData =>
    match cfg.code with
    | some c =>
      if c != "" then renderWithCode c plotData rd.2 evalUser plotPlot
      else renderDefault plotData rd.2 plotPlot
    | none => renderDefault plotData rd.2 plotPlot

/-- The whole code-block handler: configuration parsing, then the
post-parse processor; a parse failure reaches the top-level catch. -/
def plotBlockHandler (source : String) (fetch : String → FetchResult)
    (evalUser : String → JValue → JSOutcome)
    (plotPlot : SpecArg → Option Graphic) : RenderOutcome :=
  match parsePlotConfig source.toList with
  | .error m =>
    { elText := some ("Error rendering plot: " ++ m), containerCreated := false,
      containerText := none, attached := none, plotCall := none,
      fetchedUrl := none, evalCalls := 0 }
  | .ok cfg => processParsed cfg fetch evalUser plotPlot

/-- The capability each positional argument slot carries. -/
inductive Capability where
  | plotLib : Capability
  | d3Lib : Capability
  | topojsonLib : Capability
  | dataset : Capability
  | container : Capability
deriving DecidableEq

/-- Name under which a capability is exposed to user code. -/
def capabilityName : Capability → String
  | .plotLib => "Plot"
  | .d3Lib => "d3"
  | .topojsonLib => "topojson"
  | .dataset => "data"
  | .container => "container"

/-- Parameter names of the inner user function in the topojson-capable
variant, in source order
(`new Function("Plot", "d3", "data", "topojson", ...)`). -/
def userFunctionParams : List String := ["Plot", "d3", "data", "topojson"]

/-- Capabilities passed positionally in that variant's single invocation
`userFunction(Plot, d3, data, topojson)`. -/
def userFunctionArgs : List Capability :=
  [.plotLib, .d3Lib, .dataset, .topojsonLib]

/-- Parameter names of the inner user function in the main.ts variant,
which has no topojson capability. -/
def mainVariantUserFunctionParams : List String := ["Plot", "d3", "data"]

/-- Capabilities passed positionally in the main.ts variant's single
invocation `userFunction(Plot, d3, data)`. -/
def mainVariantUserFunctionArgs : List Capability :=
  [.plotLib, .d3Lib, .dataset]

/-- Parameter order asserted by the claim: visualization library,
data-manipulation library, topology-conversion library where available,
and the dataset last. -/
def claimedParamOrder (topoAvailable : Bool) : List String :=
  ["Plot", "d3"] ++ (if topoAvailable then ["topojson"] else []) ++ ["data"]

/-- Fixed head of the canonical tolerant-path source shape considered
below: an opening brace, a `data` member holding the array `[1]`, and the
separating comma. -/
def tolerantSrcHead : List Char :=
  ['\x7b', '"', 'd', 'a', 't', 'a', '"', ':', '[', '1', ']', ',']

/-- The `code` key, colon and opening quote as they appear in that
shape. -/
def codeKeyOpen : List Char :=
  ['"', 'c', 'o', 'd', 'e', '"', ':', '"']

/-- Canonical near-JSON source with one raw code payload: the fixed
head, the code key, the payload verbatim, a closing quote and the
closing brace. -/
def mkTolerantSrc (payload : List Char) : List Char :=
  tolerantSrcHead ++ codeKeyOpen ++ payload ++ ['"', '\x7d']

/-- Safety of a payload for the lazy closing-quote scan inside
`mkTolerantSrc`: no quote inside the payload may satisfy the regex's
whitespace-then-delimiter lookahead over what follows it (the rest of
the payload and then the closing quote and brace), so the scan stops
exactly at the real closing quote. -/
def safeInner : List Char → Bool
  | [] => true
  | c :: r =>
    (c != '"' || !(lookaheadWsDelim (r ++ ['"', '\x7d']))) && safeInner r

/-- A list is a prefix of itself followed by anything. -/
theorem startsWithL_append_self (a b : List Char) : startsWithL (a ++ b) a = true := by
  induction a with
  | nil => simp [startsWithL]
  | cons c t ih => simp [startsWithL, ih]

/-- A suffix is found by the substring scan. -/
theorem hasSubstr_append_right (a b : List Char) : hasSubstr (a ++ b) b = true := by
  induction a with
  | nil =>
    cases hb : startsWithL b b
    · have := startsWithL_append_self b []
      simp at this
      simp [this] at hb
    · cases b with
      | nil => rfl
      | cons c t => simp [hasSubstr, hb]
  | cons c t ih =>
    rw [List.cons_append]
    cases hs : startsWithL (c :: (t ++ b)) b
    · simp [hasSubstr, hs, ih]
    · simp [hasSubstr, hs]

/-- Replacement when the pattern sits at the head. -/
theorem replaceFirst_head (hay needle repl : List Char)
    (h : startsWithL hay needle = true) :
    replaceFirstStr hay needle repl = repl ++ hay.drop needle.length := by
  rw [replaceFirstStr.eq_def, h]
  simp

/-- Replacement skips a head character that starts no match. -/
theorem replaceFirst_cons (c : Char) (t needle repl : List Char)
    (h : startsWithL (c :: t) needle = false) :
    replaceFirstStr (c :: t) needle repl = c :: replaceFirstStr t needle repl := by
  rw [replaceFirstStr.eq_def, h]
  simp

/-- Replacement over a prefix none of whose positions starts a match:
the first occurrence is the one at the junction. -/
theorem replaceFirst_skip (pre hay needle repl : List Char)
    (hstart : startsWithL hay needle = true)
    (hpre : ∀ i, i < pre.length → startsWithL (pre.drop i ++ hay) needle = false) :
    replaceFirstStr (pre ++ hay) needle repl = pre ++ (repl ++ hay.drop needle.length) := by
  induction pre with
  | nil => simpa using replaceFirst_head hay needle repl hstart
  | cons c t ih =>
    have h0 : startsWithL ((c :: t) ++ hay) needle = false := by
      simpa using hpre 0 (by simp)
    rw [List.cons_append, replaceFirst_cons _ _ _ _ (by simpa using h0)]
    rw [ih fun i hi => by simpa using hpre (i + 1) (by simpa using Nat.succ_lt_succ hi)]
    simp

/-- The leftmost regex search skips a prefix none of whose positions
matches. -/
theorem matchCode_skip (pre hay : List Char)
    (hpre : ∀ i, i < pre.length → tryMatchCode (pre.drop i ++ hay) = none) :
    matchCode (pre ++ hay) = matchCode hay := by
  induction pre with
  | nil => simp
  | cons c t ih =>
    have h0 : tryMatchCode (c :: (t ++ hay)) = none := by
      have h1 := hpre 0 (by simp)
      rw [List.drop_zero, List.cons_append] at h1
      exact h1
    rw [List.cons_append, matchCode]
    rw [h0]
    exact ih fun i hi => by simpa using hpre (i + 1) (by simpa using Nat.succ_lt_succ hi)

/-- The lazy closing-quote scan on a safe payload stops exactly at the
real closing quote. -/
theorem scanClose_safe (p : List Char) (h : safeInner p = true) :
    scanClose (p ++ ['"', '\x7d']) = some (p, ['\x7d']) := by
  induction p with
  | nil => rfl
  | cons c t ih =>
    rw [safeInner] at h
    simp only [Bool.and_eq_true] at h
    obtain ⟨h1, h2⟩ := h
    rw [List.cons_append, scanClose]
    have hcond : (c == '"' && lookaheadWsDelim (t ++ ['"', '\x7d'])) = false := by
      rcases Bool.or_eq_true_iff.mp h1 with hc | hl
      · simp [bne_iff_ne.mp hc]
      · simp only [Bool.not_eq_true'] at hl
        simp [hl]
    rw [hcond]
    simp [ih h2]

/-- The newline substitution leaves a backslash-free payload unchanged. -/
theorem replaceEscN_id (l : List Char) (h : l.all (fun c => c != '\\') = true) :
    replaceEscN l = l := by
  induction l with
  | nil => rfl
  | cons c t ih =>
    simp only [List.all_cons, Bool.and_eq_true] at h
    obtain ⟨hc, ht⟩ := h
    cases t with
    | nil => rfl
    | cons d rest =>
      rw [replaceEscN]
      have : (c == '\\' && d == 'n') = false := by simp [bne_iff_ne.mp hc]
      rw [this]
      simp [ih ht]

/-- The quote substitution leaves a backslash-free payload unchanged. -/
theorem replaceEscQuote_id (l : List Char) (h : l.all (fun c => c != '\\') = true) :
    replaceEscQuote l = l := by
  induction l with
  | nil => rfl
  | cons c t ih =>
    simp only [List.all_cons, Bool.and_eq_true] at h
    obtain ⟨hc, ht⟩ := h
    cases t with
    | nil => rfl
    | cons d rest =>
      rw [replaceEscQuote]
      have : (c == '\\' && d == '"') = false := by simp [bne_iff_ne.mp hc]
      rw [this]
      simp [ih ht]

/-- Deleting backslashes from a backslash-free payload is the identity. -/
theorem removeBackslashes_id (l : List Char) (h : l.all (fun c => c != '\\') = true) :
    removeBackslashes l = l := by
  rw [removeBackslashes]
  exact List.filter_eq_self.mpr (List.all_eq_true.mp h)

/-- The full escape reversal leaves a backslash-free payload unchanged. -/
theorem unescapeCode_id (l : List Char) (h : l.all (fun c => c != '\\') = true) :
    unescapeCode l = l := by
  rw [unescapeCode, replaceEscN_id l h, replaceEscQuote_id l h, removeBackslashes_id l h]

/-- The escape reversal never leaves a backslash in its output. -/
theorem unescapeCode_all_no_backslash (l : List Char) :
    (unescapeCode l).all (fun c => c != '\\') = true := by
  rw [unescapeCode, removeBackslashes]
  rw [List.all_eq_true]
  intro a ha
  exact (List.mem_filter.mp ha).2

/-- The split on a separator never yields an empty list of parts. -/
theorem splitOnChar_ne_nil (c : Char) (l : List Char) : splitOnChar c l ≠ [] := by
  induction l with
  | nil => simp [splitOnChar]
  | cons x xs ih =>
    rw [splitOnChar]
    cases hx : (x == c)
    · simp only [hx, Bool.false_eq_true, if_false]
      cases h : splitOnChar c xs
      · simp
      · simp
    · simp

/-- A list containing the separator splits into at least two parts. -/
theorem splitOnChar_length_ge_two (c : Char) (l : List Char) (h : c ∈ l) :
    2 ≤ (splitOnChar c l).length := by
  induction l with
  | nil => simp at h
  | cons x xs ih =>
    rw [splitOnChar]
    cases hx : (x == c)
    · have hmem : c ∈ xs := by
        rcases List.mem_cons.mp h with h1 | h1
        · exact absurd (beq_iff_eq.mpr h1.symm) (by simp [hx])
        · exact h1
      simp only [hx, Bool.false_eq_true, if_false]
      cases hs : splitOnChar c xs with
      | nil => exact absurd hs (splitOnChar_ne_nil c xs)
      | cons p ps =>
        have := ih hmem
        rw [hs] at this
        simpa using this
    · simp only [hx, if_true]
      have h1 := splitOnChar_ne_nil c xs
      have : 1 ≤ (splitOnChar c xs).length := by
        cases hs : splitOnChar c xs
        · exact absurd hs h1
        · simp
      simpa using Nat.succ_le_succ this

/-- The last part after the final separator occurrence is the last part
of the text after that occurrence. -/
theorem splitOnChar_getLastD_append (c : Char) (a b : List Char) :
    (splitOnChar c (a ++ c :: b)).getLastD [] = (splitOnChar c b).getLastD [] := by
  induction a with
  | nil =>
    rw [List.nil_append, splitOnChar]
    simp only [beq_self_eq_true, if_true]
    cases hs : splitOnChar c b with
    | nil => exact absurd hs (splitOnChar_ne_nil c b)
    | cons q qs => simp [List.getLastD_cons]
  | cons x a' ih =>
    rw [List.cons_append, splitOnChar]
    cases hx : (x == c)
    · simp only [hx, Bool.false_eq_true, if_false]
      cases hs : splitOnChar c (a' ++ c :: b) with
      | nil => exact absurd hs (splitOnChar_ne_nil c _)
      | cons p ps =>
        have hlen : 2 ≤ (splitOnChar c (a' ++ c :: b)).length :=
          splitOnChar_length_ge_two c _ (by simp)
        rw [hs] at hlen
        cases ps with
        | nil => simp at hlen
        | cons q qs =>
          rw [hs] at ih
          simp only [List.getLastD_cons] at ih ⊢
          exact ih
    · simp only [hx, if_true]
      rw [List.getLastD_cons]
      exact ih

/-- The extension of a path ending in a dot-csv suffix is `csv`. -/
theorem extOf_append_csv (ql : List Char) :
    extOf (ql ++ ['.', 'c', 's', 'v']) = ['c', 's', 'v'] := by
  rw [extOf]
  have : (['.', 'c', 's', 'v'] : List Char) = '.' :: ['c', 's', 'v'] := rfl
  rw [this, splitOnChar_getLastD_append]
  rfl

/-- The regex matches at the code key of the canonical source: the
literal key, no whitespace, the opening quote, then the safe scan. -/
theorem tryMatchCode_at (p : List Char) (h : safeInner p = true) :
    tryMatchCode ('"' :: 'c' :: 'o' :: 'd' :: 'e' :: '"' :: ':' :: '"' :: (p ++ ['"', '\x7d'])) =
      some (p.length + 9, p, ['\x7d']) := by
  rw [tryMatchCode]
  have hs : stripLit ['"', 'c', 'o', 'd', 'e', '"']
      ('"' :: 'c' :: 'o' :: 'd' :: 'e' :: '"' :: ':' :: '"' :: (p ++ ['"', '\x7d'])) =
      some (':' :: '"' :: (p ++ ['"', '\x7d'])) := by
    simp [stripLit]
  rw [hs]
  have hd1 : dropJsWs (':' :: '"' :: (p ++ ['"', '\x7d'])) = ':' :: '"' :: (p ++ ['"', '\x7d']) := by
    rw [dropJsWs]
    simp [jsWs]
  have hd2 : dropJsWs ('"' :: (p ++ ['"', '\x7d'])) = '"' :: (p ++ ['"', '\x7d']) := by
    rw [dropJsWs]
    simp [jsWs]
  simp only [hd1, hd2, scanClose_safe p h]
  simp

/-- The leftmost regex match on the canonical source captures exactly
the payload, and the match ends just before the closing brace. -/
theorem matchCode_tolerant (p : List Char) (h : safeInner p = true) :
    matchCode (mkTolerantSrc p) = some (codeKeyOpen ++ p ++ ['"'], p, ['\x7d']) := by
  have hassoc : mkTolerantSrc p = tolerantSrcHead ++ (codeKeyOpen ++ p ++ ['"', '\x7d']) := by
    simp [mkTolerantSrc]
  rw [hassoc]
  rw [matchCode_skip tolerantSrcHead (codeKeyOpen ++ p ++ ['"', '\x7d'])
    (by
      intro i hi
      simp only [tolerantSrcHead, List.length_cons, List.length_nil] at hi
      interval_cases i <;>
        simp [tolerantSrcHead, codeKeyOpen, tryMatchCode, stripLit])]
  show matchCode ('"' :: 'c' :: 'o' :: 'd' :: 'e' :: '"' :: ':' :: '"' :: (p ++ ['"', '\x7d'])) = _
  rw [matchCode, tryMatchCode_at p h]
  have h2 : List.take (p.length + 9)
      ('"' :: 'c' :: 'o' :: 'd' :: 'e' :: '"' :: ':' :: '"' :: (p ++ ['"', '\x7d'])) =
      codeKeyOpen ++ p ++ ['"'] := by
    have h3 : ('"' :: 'c' :: 'o' :: 'd' :: 'e' :: '"' :: ':' :: '"' :: (p ++ ['"', '\x7d'])) =
        (codeKeyOpen ++ p ++ ['"']) ++ ['\x7d'] := by
      simp [codeKeyOpen]
    have h4 : p.length + 9 = (codeKeyOpen ++ p ++ ['"']).length := by
      simp [codeKeyOpen]
    rw [h3, h4, List.take_left]
  simp only [h2]

/-- Replacing the matched text in the canonical source yields the fixed
head, the placeholder member and the closing brace. -/
theorem replaceFirst_tolerant (p : List Char) :
    replaceFirstStr (mkTolerantSrc p) (codeKeyOpen ++ p ++ ['"']) placeholderRepl =
      tolerantSrcHead ++ (placeholderRepl ++ ['\x7d']) := by
  have hshape : mkTolerantSrc p = tolerantSrcHead ++ ((codeKeyOpen ++ p ++ ['"']) ++ ['\x7d']) := by
    simp [mkTolerantSrc]
  rw [hshape]
  rw [replaceFirst_skip tolerantSrcHead ((codeKeyOpen ++ p ++ ['"']) ++ ['\x7d'])
    (codeKeyOpen ++ p ++ ['"']) placeholderRepl
    (startsWithL_append_self (codeKeyOpen ++ p ++ ['"']) ['\x7d'])
    (by
      intro i hi
      simp only [tolerantSrcHead, List.length_cons, List.length_nil] at hi
      interval_cases i <;>
        simp [tolerantSrcHead, codeKeyOpen, startsWithL])]
  rw [List.drop_left]

/-- The placeholder-substituted canonical source is valid JSON and
parses to the expected object. -/
theorem withoutCode_parse :
    jsonParse (tolerantSrcHead ++ (placeholderRepl ++ ['\x7d'])) =
      .ok (.obj [("data", .arr [.num 1 0]), ("code", .str "__CODE_PLACEHOLDER__")]) := rfl

/-- Claim C1 (amended): over canonical sources holding one raw code
payload under the `code` key, where direct JSON parsing fails, the
payload contains no backslash, and no quote inside the payload satisfies
the regex lookahead (optional whitespace then a closing delimiter), the
tolerant path recovers a configuration whose `code` equals the original
payload; the three reversal substitutions are the identity on such
payloads.  The backslash-free condition is forced by the third
substitution, which deletes every remaining backslash. -/
theorem claimC1_tolerant_roundtrip (p : List Char)
    (hnb : p.all (fun c => c != '\\') = true)
    (hsafe : safeInner p = true)
    (hjson : isOkE (jsonParse (mkTolerantSrc p)) = false) :
    parsePlotConfig (mkTolerantSrc p) =
      .ok { data := some [JValue.num 1 0], dataUrl := none, code := some (String.mk p) } := by
  obtain ⟨e, hj⟩ : ∃ e, jsonParse (mkTolerantSrc p) = .error e := by
    cases hx : jsonParse (mkTolerantSrc p) with
    | ok v => rw [hx] at hjson; simp [isOkE] at hjson
    | error e => exact ⟨e, rfl⟩
  simp only [parsePlotConfig, hj, matchCode_tolerant p hsafe, replaceFirst_tolerant p,
    withoutCode_parse]
  rw [unescapeCode_id p hnb]
  rfl

/-- Claim C1 is refuted as stated: this source is not valid JSON, holds
one `code` key whose value contains literal newlines and literal double
quotes, unescaped, yet the tolerant path recovers a code payload that
differs from the original — the third substitution deleted the
backslash of the regex escape in the payload. -/
theorem claimC1_counterexample :
    isOkE (jsonParse (mkTolerantSrc "\nconst s = \"x\";\nreturn /\\d/.test(s);\n".toList)) = false ∧
    ("\nconst s = \"x\";\nreturn /\\d/.test(s);\n".toList.contains '\n') = true ∧
    ("\nconst s = \"x\";\nreturn /\\d/.test(s);\n".toList.contains '"') = true ∧
    parsePlotConfig (mkTolerantSrc "\nconst s = \"x\";\nreturn /\\d/.test(s);\n".toList) =
      .ok { data := some [JValue.num 1 0], dataUrl := none,
            code := some "\nconst s = \"x\";\nreturn /d/.test(s);\n" } ∧
    ("\nconst s = \"x\";\nreturn /d/.test(s);\n" : String) ≠
      "\nconst s = \"x\";\nreturn /\\d/.test(s);\n" :=
  ⟨by decide, by decide, by decide, by rfl, by decide⟩

/-- Witness for the amended claim C1 at a concrete payload holding a
literal newline and literal quotes. -/
theorem claimC1_witness :
    ("\nconst t = \"a b\";\nreturn t;\n".toList.all (fun c => c != '\\')) = true ∧
    safeInner "\nconst t = \"a b\";\nreturn t;\n".toList = true ∧
    isOkE (jsonParse (mkTolerantSrc "\nconst t = \"a b\";\nreturn t;\n".toList)) = false ∧
    parsePlotConfig (mkTolerantSrc "\nconst t = \"a b\";\nreturn t;\n".toList) =
      .ok { data := some [JValue.num 1 0], dataUrl := none,
            code := some (String.mk "\nconst t = \"a b\";\nreturn t;\n".toList) } :=
  ⟨by decide, by decide, by decide,
   claimC1_tolerant_roundtrip _ (by decide) (by decide) (by decide)⟩

/-- Claim C9: any code field recovered via the tolerant parse path
contains no backslash at all — the third substitution deletes every
backslash that survives the first two, so backslash uses other than
backslash-n and backslash-quote (such as a regex escape) are lost. -/
theorem claimC9_no_backslash_after_recovery (src : List Char) (cfg : PlotConfig) (c : String)
    (hdirect : isOkE (jsonParse src) = false)
    (hok : parsePlotConfig src = .ok cfg)
    (hcode : cfg.code = some c) :
    c.toList.all (fun ch => ch != '\\') = true := by
  obtain ⟨e, hj⟩ : ∃ e, jsonParse src = .error e := by
    cases hx : jsonParse src with
    | ok v => rw [hx] at hdirect; simp [isOkE] at hdirect
    | error e => exact ⟨e, rfl⟩
  simp only [parsePlotConfig, hj] at hok
  cases hm : matchCode src with
  | none => rw [hm] at hok; simp at hok
  | some t =>
    obtain ⟨m0, g2, rest⟩ := t
    rw [hm] at hok
    cases hw : jsonParse (replaceFirstStr src m0 placeholderRepl) with
    | error e2 => simp only [hw] at hok; simp at hok
    | ok v =>
      simp only [hw] at hok
      injection hok with h1
      rw [← h1] at hcode
      simp only [] at hcode
      injection hcode with h2
      rw [← h2]
      exact unescapeCode_all_no_backslash g2

/-- Witness for claim C9: the recovered payload of a concrete tolerant
parse, in which a regex escape lost its backslash, is backslash-free. -/
theorem claimC9_witness :
    ("\nreturn /w/.test(\"y\");\n" : String).toList.all (fun ch => ch != '\\') = true :=
  claimC9_no_backslash_after_recovery
    (mkTolerantSrc "\nreturn /\\w/.test(\"y\");\n".toList)
    { data := some [JValue.num 1 0], dataUrl := none, code := some "\nreturn /w/.test(\"y\");\n" }
    "\nreturn /w/.test(\"y\");\n" (by decide) (by rfl) rfl

/-- The sandboxed branch records the URL it was given, whatever the
execution outcome. -/
theorem renderWithCode_fetchedUrl (c : String) (dv : JValue) (f : Option String)
    (evalUser : String → JValue → JSOutcome) (plotPlot : SpecArg → Option Graphic) :
    (renderWithCode c dv f evalUser plotPlot).fetchedUrl = f := by
  cases hev : evalUser c dv with
  | threw m => simp [renderWithCode, hev]
  | ret spec =>
    by_cases hts : jsTruthy spec
    · cases hp : plotPlot (.userSpec spec) <;> simp [renderWithCode, hev, hts, hp]
    · simp [renderWithCode, hev, hts]

/-- The default branch records the URL it was given, whatever the
library returns. -/
theorem renderDefault_fetchedUrl (dv : JValue) (f : Option String)
    (plotPlot : SpecArg → Option Graphic) :
    (renderDefault dv f plotPlot).fetchedUrl = f := by
  cases hp : plotPlot (SpecArg.defaultSpec ⟨640, 400, 40, [Mark.dot dv]⟩) <;>
    simp [renderDefault, hp]

/-- The processor's recorded fetch URL is exactly what data resolution
reports. -/
theorem processParsed_fetchedUrl (cfg : PlotConfig) (fetch : String → FetchResult)
    (evalUser : String → JValue → JSOutcome) (plotPlot : SpecArg → Option Graphic) :
    (processParsed cfg fetch evalUser plotPlot).fetchedUrl = (resolveData cfg fetch).2 := by
  rw [processParsed]
  cases hr : (resolveData cfg fetch).1 with
  | error m => simp
  | ok dv =>
    cases hc : cfg.code with
    | none => simp [renderDefault_fetchedUrl]
    | some c =>
      by_cases hne : c != ""
      · simp [hne, renderWithCode_fetchedUrl]
      · simp [hne, renderDefault_fetchedUrl]

/-- The inline branch never reports a fetched URL. -/
theorem resolveInline_snd (cfg : PlotConfig) : (resolveInline cfg).2 = none := by
  cases hd : cfg.data <;> simp [resolveInline, hd]

/-- Claim C3: a configuration with neither `data` nor `dataUrl` fails
with the missing-source error, which the top-level catch writes into the
element with the render-failure context, and the fetch path is never
reached. -/
theorem claimC3_missing_source (codeF : Option String) (fetch : String → FetchResult)
    (evalUser : String → JValue → JSOutcome) (plotPlot : SpecArg → Option Graphic) :
    (resolveData ⟨none, none, codeF⟩ fetch).1 = .error "Either data or dataUrl must be provided" ∧
    (processParsed ⟨none, none, codeF⟩ fetch evalUser plotPlot).elText =
      some "Error rendering plot: Either data or dataUrl must be provided" ∧
    (processParsed ⟨none, none, codeF⟩ fetch evalUser plotPlot).fetchedUrl = none :=
  ⟨rfl, rfl, rfl⟩

/-- Claim C10: a present-but-empty `dataUrl` is treated exactly as an
absent one — the truthiness branch falls through, the inline rows are
used when present, the missing-source error is raised otherwise, and no
fetch is issued. -/
theorem claimC10_empty_dataUrl (d : Option (List JValue)) (codeF : Option String)
    (fetch : String → FetchResult) (evalUser : String → JValue → JSOutcome)
    (plotPlot : SpecArg → Option Graphic) :
    processParsed ⟨d, some "", codeF⟩ fetch evalUser plotPlot =
      processParsed ⟨d, none, codeF⟩ fetch evalUser plotPlot ∧
    (processParsed ⟨d, some "", codeF⟩ fetch evalUser plotPlot).fetchedUrl = none ∧
    (∀ rows : List JValue,
      (resolveData ⟨some rows, some "", codeF⟩ fetch).1 = .ok (.arr rows)) ∧
    (resolveData ⟨none, some "", codeF⟩ fetch).1 = .error "Either data or dataUrl must be provided" := by
  refine ⟨?_, ?_, fun rows => rfl, rfl⟩
  · have h1 : resolveData ⟨d, some "", codeF⟩ fetch = resolveData ⟨d, none, codeF⟩ fetch := by
      simp [resolveData, resolveInline]
    simp [processParsed, h1]
  · rw [processParsed_fetchedUrl]
    have : resolveData ⟨d, some "", codeF⟩ fetch = resolveInline ⟨d, some "", codeF⟩ := by
      simp [resolveData]
    rw [this, resolveInline_snd]

/-- Claim C4: when the invoked payload returns null or undefined, the
sandbox fails with the no-specification error before anything reaches
the visualization library, and nothing is attached to the output
container. -/
theorem claimC4_null_spec (d : List JValue) (c : String) (v : JValue)
    (fetch : String → FetchResult) (evalUser : String → JValue → JSOutcome)
    (plotPlot : SpecArg → Option Graphic)
    (hc : c ≠ "")
    (hv : evalUser c (.arr d) = .ret v)
    (hnull : v = JValue.null ∨ v = JValue.undefined) :
    (processParsed ⟨some d, none, some c⟩ fetch evalUser plotPlot).containerText =
      some "Error generating plot: No plot specification returned" ∧
    (processParsed ⟨some d, none, some c⟩ fetch evalUser plotPlot).attached = none ∧
    (processParsed ⟨some d, none, some c⟩ fetch evalUser plotPlot).plotCall = none := by
  have hcb : (c != "") = true := bne_iff_ne.mpr hc
  have hts : jsTruthy v = false := by rcases hnull with h | h <;> simp [h, jsTruthy]
  refine ⟨?_, ?_, ?_⟩ <;>
    simp [processParsed, resolveData, resolveInline, hcb, renderWithCode, hv, hts]

/-- Witness for claim C4 with the payload returning null. -/
theorem claimC4_witness :
    (processParsed ⟨some [], none, some "return null"⟩ (fun _ => FetchResult.networkError "offline")
      (fun _ _ => JSOutcome.ret JValue.null) (fun _ => some ⟨1⟩)).containerText =
      some "Error generating plot: No plot specification returned" ∧
    (processParsed ⟨some [], none, some "return null"⟩ (fun _ => FetchResult.networkError "offline")
      (fun _ _ => JSOutcome.ret JValue.null) (fun _ => some ⟨1⟩)).attached = none ∧
    (processParsed ⟨some [], none, some "return null"⟩ (fun _ => FetchResult.networkError "offline")
      (fun _ _ => JSOutcome.ret JValue.null) (fun _ => some ⟨1⟩)).plotCall = none :=
  claimC4_null_spec [] "return null" JValue.null _ _ _ (by decide) rfl (Or.inl rfl)

/-- Claim C7: with no code payload, the default specification — width
640, height 400, margin 40 and a single dot mark over the resolved
dataset — is what gets handed to the visualization library, and the
sandbox is never invoked. -/
theorem claimC7_default_spec (d : List JValue) (fetch : String → FetchResult)
    (evalUser : String → JValue → JSOutcome) (plotPlot : SpecArg → Option Graphic) :
    (processParsed ⟨some d, none, none⟩ fetch evalUser plotPlot).plotCall =
      some (SpecArg.defaultSpec ⟨640, 400, 40, [Mark.dot (.arr d)]⟩) ∧
    (processParsed ⟨some d, none, none⟩ fetch evalUser plotPlot).evalCalls = 0 := by
  constructor <;>
    (cases hp : plotPlot (SpecArg.defaultSpec ⟨640, 400, 40, [Mark.dot (JValue.arr d)]⟩) <;>
      simp [processParsed, resolveData, resolveInline, renderDefault, hp])

/-- Claim C6: with both inline rows and a nonempty URL present, the
fetch path is taken and the inline rows are never consulted — the whole
outcome is invariant under changing them — and a fetch failure surfaces
as an error instead of falling back to the inline rows. -/
theorem claimC6_dataUrl_precedence (d1 d2 : List JValue) (u : String) (codeF : Option String)
    (fetch : String → FetchResult) (evalUser : String → JValue → JSOutcome)
    (plotPlot : SpecArg → Option Graphic) (hu : u ≠ "") :
    processParsed ⟨some d1, some u, codeF⟩ fetch evalUser plotPlot =
      processParsed ⟨some d2, some u, codeF⟩ fetch evalUser plotPlot ∧
    (processParsed ⟨some d1, some u, codeF⟩ fetch evalUser plotPlot).fetchedUrl = some u ∧
    (∀ m, fetch u = .networkError m →
      (processParsed ⟨some d1, some u, codeF⟩ fetch evalUser plotPlot).elText =
        some ("Error rendering plot: Failed to fetch data from URL: " ++ m) ∧
      (processParsed ⟨some d1, some u, codeF⟩ fetch evalUser plotPlot).attached = none) := by
  have hub : (u != "") = true := bne_iff_ne.mpr hu
  have hres : ∀ dd : List JValue, resolveData ⟨some dd, some u, codeF⟩ fetch =
      ((fetchAndParse u fetch).mapError fun m => "Failed to fetch data from URL: " ++ m,
        some u) := by
    intro dd
    simp [resolveData, hub]
  refine ⟨?_, ?_, ?_⟩
  · simp [processParsed, hres]
  · rw [processParsed_fetchedUrl, hres]
  · intro m hm
    have hfp : fetchAndParse u fetch = .error m := by simp [fetchAndParse, hm]
    have hstr : "Error rendering plot: " ++ ("Failed to fetch data from URL: " ++ m) =
        "Error rendering plot: Failed to fetch data from URL: " ++ m := by
      rw [← String.append_assoc]
      rfl
    constructor <;> simp [processParsed, hres, hfp, Except.mapError, hstr]

/-- Witness for claim C6 at a concrete URL and failing fetch. -/
theorem claimC6_witness :
    processParsed ⟨some [JValue.num 1 0], some "https://x.test/a.json", none⟩
        (fun _ => FetchResult.networkError "net down") (fun _ _ => JSOutcome.ret JValue.null)
        (fun _ => some ⟨1⟩) =
      processParsed ⟨some [], some "https://x.test/a.json", none⟩
        (fun _ => FetchResult.networkError "net down") (fun _ _ => JSOutcome.ret JValue.null)
        (fun _ => some ⟨1⟩) ∧
    (processParsed ⟨some [JValue.num 1 0], some "https://x.test/a.json", none⟩
        (fun _ => FetchResult.networkError "net down") (fun _ _ => JSOutcome.ret JValue.null)
        (fun _ => some ⟨1⟩)).elText =
      some ("Error rendering plot: Failed to fetch data from URL: " ++ "net down") := by
  have h := claimC6_dataUrl_precedence [JValue.num 1 0] [] "https://x.test/a.json" none
    (fun _ => FetchResult.networkError "net down") (fun _ _ => JSOutcome.ret JValue.null)
    (fun _ => some ⟨1⟩) (by decide)
  exact ⟨h.1, (h.2.2 "net down" rfl).1⟩

/-- Claim C8: a fetch whose response has a non-success status fails with
the HTTP-error message carrying the numeric status code; the top-level
catch writes the wrapped message — containing the underlying error's
text verbatim — into the element, no graphic is attached, and the plot
container is never created. -/
theorem claimC8_http_status_error (u : String) (n : Nat) (body : String)
    (d : Option (List JValue)) (codeF : Option String) (fetch : String → FetchResult)
    (evalUser : String → JValue → JSOutcome) (plotPlot : SpecArg → Option Graphic)
    (hu : u ≠ "")
    (hf : fetch u = .success ⟨false, n, body⟩) :
    (processParsed ⟨d, some u, codeF⟩ fetch evalUser plotPlot).elText =
      some ("Error rendering plot: Failed to fetch data from URL: HTTP error! status: " ++
        toString n) ∧
    hasSubstr ("Error rendering plot: Failed to fetch data from URL: HTTP error! status: " ++
      toString n).toList (toString n).toList = true ∧
    (processParsed ⟨d, some u, codeF⟩ fetch evalUser plotPlot).attached = none ∧
    (processParsed ⟨d, some u, codeF⟩ fetch evalUser plotPlot).containerCreated = false := by
  have hub : (u != "") = true := bne_iff_ne.mpr hu
  have hfp : fetchAndParse u fetch = .error ("HTTP error! status: " ++ toString n) := by
    simp [fetchAndParse, hf]
  have hstr : "Error rendering plot: " ++
      ("Failed to fetch data from URL: " ++ ("HTTP error! status: " ++ toString n)) =
      "Error rendering plot: Failed to fetch data from URL: HTTP error! status: " ++
        toString n := by
    rw [← String.append_assoc, ← String.append_assoc]
    rfl
  refine ⟨?_, ?_, ?_, ?_⟩
  · simp [processParsed, resolveData, hub, hfp, Except.mapError, hstr]
  · rw [show ("Error rendering plot: Failed to fetch data from URL: HTTP error! status: " ++
        toString n).toList =
      "Error rendering plot: Failed to fetch data from URL: HTTP error! status: ".toList ++
        (toString n).toList by simp]
    exact hasSubstr_append_right _ _
  · simp [processParsed, resolveData, hub, hfp, Except.mapError]
  · simp [processParsed, resolveData, hub, hfp, Except.mapError]

/-- Witness for claim C8 at status 404. -/
theorem claimC8_witness :
    (processParsed ⟨none, some "https://x.test/a.json", none⟩
        (fun _ => FetchResult.success ⟨false, 404, "not found"⟩) (fun _ _ => JSOutcome.ret JValue.null)
        (fun _ => some ⟨1⟩)).elText =
      some ("Error rendering plot: Failed to fetch data from URL: HTTP error! status: " ++
        toString 404) ∧
    hasSubstr ("Error rendering plot: Failed to fetch data from URL: HTTP error! status: " ++
      toString 404).toList (toString 404).toList = true ∧
    (processParsed ⟨none, some "https://x.test/a.json", none⟩
        (fun _ => FetchResult.success ⟨false, 404, "not found"⟩) (fun _ _ => JSOutcome.ret JValue.null)
        (fun _ => some ⟨1⟩)).attached = none ∧
    (processParsed ⟨none, some "https://x.test/a.json", none⟩
        (fun _ => FetchResult.success ⟨false, 404, "not found"⟩) (fun _ _ => JSOutcome.ret JValue.null)
        (fun _ => some ⟨1⟩)).containerCreated = false :=
  claimC8_http_status_error "https://x.test/a.json" 404 "not found" none none _ _ _ (by decide) rfl

/-- Claim C5: a successful fetch from a URL whose path ends in the
dot-csv suffix is parsed as CSV with per-field automatic type inference,
so the two-row body yields exactly two records with numeric field
values. -/
theorem claimC5_csv_numeric (u : String) (ql : List Char) (d : Option (List JValue))
    (codeF : Option String) (fetch : String → FetchResult)
    (hu : u ≠ "")
    (hpath : pathnameOf u.toList = some (ql ++ ['.', 'c', 's', 'v']))
    (hf : fetch u = .success ⟨true, 200, "a,b\n1,2\n3,4"⟩) :
    (resolveData ⟨d, some u, codeF⟩ fetch).1 =
      .ok (.arr [.obj [("a", .num 1 0), ("b", .num 2 0)],
                 .obj [("a", .num 3 0), ("b", .num 4 0)]]) := by
  have hub : (u != "") = true := bne_iff_ne.mpr hu
  have hpath' : pathnameOf u.data = some (ql ++ ['.', 'c', 's', 'v']) := hpath
  have hfp : fetchAndParse u fetch =
      dispatchFormat (extOf (ql ++ ['.', 'c', 's', 'v'])) "a,b\n1,2\n3,4" := by
    simp [fetchAndParse, hf, hpath']
  rw [extOf_append_csv] at hfp
  have hdp : dispatchFormat ['c', 's', 'v'] "a,b\n1,2\n3,4" =
      .ok (.arr [.obj [("a", .num 1 0), ("b", .num 2 0)],
                 .obj [("a", .num 3 0), ("b", .num 4 0)]]) := by rfl
  rw [hdp] at hfp
  simp [resolveData, hub, hfp, Except.mapError]

/-- Witness for claim C5 at a concrete csv URL. -/
theorem claimC5_witness :
    (resolveData ⟨none, some "https://example.com/data.csv", none⟩
        (fun _ => FetchResult.success ⟨true, 200, "a,b\n1,2\n3,4"⟩)).1 =
      .ok (.arr [.obj [("a", .num 1 0), ("b", .num 2 0)],
                 .obj [("a", .num 3 0), ("b", .num 4 0)]]) :=
  claimC5_csv_numeric "https://example.com/data.csv" "/data".toList none none _
    (by decide) (by decide) rfl

/-- Claim C2 is refuted as stated: in the topojson-capable variant the
inner user function's parameter list is not the claimed order with the
dataset last — the dataset comes third and the topology library last. -/
theorem claimC2_counterexample : userFunctionParams ≠ claimedParamOrder true := by decide

/-- Claim C2 (amended): the sandbox constructs the user function with
the parameter list Plot, d3, data, topojson (topojson last where
available; the main.ts variant has Plot, d3, data), invokes it exactly
once, and passes the capability arguments positionally in the same
order as the parameter names. -/
theorem claimC2_sandbox_params_and_single_call :
    userFunctionParams = ["Plot", "d3", "data", "topojson"] ∧
    userFunctionArgs.map capabilityName = userFunctionParams ∧
    mainVariantUserFunctionParams = ["Plot", "d3", "data"] ∧
    mainVariantUserFunctionArgs.map capabilityName = mainVariantUserFunctionParams ∧
    ∀ (d : List JValue) (u : Option String) (c : String)
      (fetch : String → FetchResult) (evalUser : String → JValue → JSOutcome)
      (plotPlot : SpecArg → Option Graphic) (dv : JValue),
      c ≠ "" →
      (resolveData ⟨some d, u, some c⟩ fetch).1 = .ok dv →
      (processParsed ⟨some d, u, some c⟩ fetch evalUser plotPlot).evalCalls = 1 := by
  refine ⟨rfl, rfl, rfl, rfl, ?_⟩
  intro d u c fetch evalUser plotPlot dv hc hres
  have hcb : (c != "") = true := bne_iff_ne.mpr hc
  have hone : ∀ (cc : String) (vv : JValue) (ff : Option String),
      (renderWithCode cc vv ff evalUser plotPlot).evalCalls = 1 := by
    intro cc vv ff
    cases hev : evalUser cc vv with
    | threw m => simp [renderWithCode, hev]
    | ret spec =>
      by_cases hts : jsTruthy spec
      · cases hp : plotPlot (.userSpec spec) <;> simp [renderWithCode, hev, hts, hp]
      · simp [renderWithCode, hev, hts]
  rw [processParsed]
  simp only [hres, hcb, if_true]
  exact hone c dv _

/-- Witness for the amended claim C2's single-invocation clause. -/
theorem claimC2_witness :
    (processParsed ⟨some [], none, some "return 1"⟩ (fun _ => FetchResult.networkError "offline")
      (fun _ _ => JSOutcome.ret (JValue.num 1 0)) (fun _ => some ⟨1⟩)).evalCalls = 1 :=
  claimC2_sandbox_params_and_single_call.2.2.2.2 [] none "return 1" _ _ _ (JValue.arr [])
    (by decide) rfl
